import Mathlib

/-!
Verification of the CTATDragSource drag-and-drop transfer protocol.

The definitions below are a shallow embedding of the JavaScript widget in
`src/dragsource-old.js` (latest revision, the variant using the
`data-ctat-purpose` / `data-ctat-max-overflow` attributes, lines 979-1459)
and the structurally identical handlers in `src/dragbp.js` (lines 1-453).
JavaScript numbers that flow through `x & x` are modelled as mathematical
integers reduced to the signed 32-bit range; `parseInt` of an absent or
non-numeric attribute (NaN) is modelled as `Option.none`; DOM elements are
modelled as finite trees of nodes.  Each definition cites the source lines
it translates.
-/

namespace DragSource

/-!  IdentityHasher: `hash` at dragsource-old.js lines 1064-1066 / dragbp.js
lines 78-80:
`s.split("").reduce(function(a,b){a=((a<<5)-a)+b.charCodeAt(0); return a&a;},0)`.
`a << 5` coerces to ToInt32 before and after the shift, `a & a` is ToInt32 of
the accumulated double.  Characters are modelled by their Unicode scalar
value, which coincides with `charCodeAt` for code points below 0x10000. -/

def toInt32 (n : Int) : Int :=
  let m := n % 4294967296
  if m < 2147483648 then m else m - 4294967296

def hashStep (a : Int) (c : Nat) : Int :=
  toInt32 (toInt32 (a * 32) - a + (c : Int))

def hash (s : String) : Int :=
  s.data.foldl (fun a ch => hashStep a ch.toNat) 0

/-!  DragSideTable: the module-level map `CTATDragSource.dragging`
(dragsource-old.js line 1452).  A JavaScript object holds at most one value
per key; assignment overwrites, `delete` removes the key. -/

structure DragEntry where
  id : String
  group : String
  source : String
deriving DecidableEq

abbrev DragTable := List (Int × DragEntry)

def tableLookup (tb : DragTable) (h : Int) : Option DragEntry :=
  match tb with
  | [] => none
  | (k, e) :: rest => if k = h then some e else tableLookup rest h

def tableInsert (tb : DragTable) (h : Int) (e : DragEntry) : DragTable :=
  (h, e) :: tb.filter (fun p => p.1 ≠ h)

def tableDelete (tb : DragTable) (h : Int) : DragTable :=
  tb.filter (fun p => p.1 ≠ h)

/-!  DOM item trees.  A node carries the fields the protocol reads or
writes: its id, class list, value, the `draggable` attribute, the
`disabled` property, and its child nodes. -/

mutual

inductive Node where
  | mk (id : String) (classes : List String) (value : String)
       (draggable : Bool) (disabled : Bool) (children : NodeList)

inductive NodeList where
  | nil : NodeList
  | cons (head : Node) (tail : NodeList) : NodeList

end

def Node.id : Node → String
  | .mk i _ _ _ _ _ => i

def Node.classes : Node → List String
  | .mk _ cls _ _ _ _ => cls

def Node.value : Node → String
  | .mk _ _ v _ _ _ => v

def Node.draggable : Node → Bool
  | .mk _ _ _ dr _ _ => dr

def Node.disabled : Node → Bool
  | .mk _ _ _ _ dis _ => dis

def Node.children : Node → NodeList
  | .mk _ _ _ _ _ ch => ch

def NodeList.length : NodeList → Nat
  | .nil => 0
  | .cons _ t => t.length + 1

def NodeList.append : NodeList → NodeList → NodeList
  | .nil, l => l
  | .cons h t, l => .cons h (t.append l)

def NodeList.tail : NodeList → NodeList
  | .nil => .nil
  | .cons _ t => t

def NodeList.toList : NodeList → List Node
  | .nil => []
  | .cons h t => h :: t.toList

/-!  Containers.  A CTATDragSource div: its `id`, `name` attribute (the
group), `data-ctat-purpose`, parsed `data-ctat-max-cardinality` and
`data-ctat-max-overflow` attributes (`none` models an absent attribute,
whose `parseInt` is NaN), the component enabled flag, the
`CTATDragSource--valid-drop` class, and the child items. -/

structure Container where
  id : String
  name : String
  purpose : Option String
  maxCardinality : Option Int
  maxOverflow : Option Int
  enabled : Bool
  validDrop : Bool
  children : NodeList

/-- `$(el).attr('data-ctat-purpose') === s`: an absent attribute is
`undefined`, which is `===`-unequal to every string. -/
def purposeIs (p : Option String) (s : String) : Bool :=
  match p with
  | some v => v == s
  | none => false

/-- `!($(el).attr('data-ctat-purpose'))`: `undefined` and the empty string
are the falsy cases. -/
def purposeFalsy (p : Option String) : Bool :=
  match p with
  | none => true
  | some v => v == ""

/-- The cardinality guard at dragsource-old.js line 1190 / dragbp.js
line 189: `isNaN(limit) || limit<0 || $(this).children().length<limit`. -/
def limitOk (lim : Option Int) (count : Nat) : Bool :=
  match lim with
  | none => true
  | some l => l < 0 || (count : Int) < l

/-!  The drag transport (`e.dataTransfer`) as observed by the protocol:
whether the type list carries the `ctat/group` marker, the stored string
fields, and the hash ids of the dynamic `ctat/id/<hid>` type tags. -/

structure Transport where
  hasGroupType : Bool
  groupData : String
  sourceData : String
  originalData : String
  textData : String
  idTags : List Int
deriving DecidableEq

/-- Some browsers refuse to expose `getData('text')` during `dragover`;
there it reads back as the empty string.  `exposed = false` models that
webkit behaviour, `exposed = true` the Firefox behaviour. -/
def maskText (exposed : Bool) (t : Transport) : Transport :=
  if exposed then t else { t with textData := "" }

/-!  The whole page state touched by the handlers: the containers on the
page and the process-wide side table. -/

structure PageState where
  containers : List Container
  table : DragTable

/-- The candidate id minted by `handle_drag_start` (dragsource-old.js
lines 1076-1097): a fresh `<item id>--<generated suffix>` when the origin
container has purpose `source`, otherwise the item id itself. -/
def candidateId (origin : Container) (itemId suffix : String) : String :=
  if purposeIs origin.purpose "source" then itemId ++ "--" ++ suffix else itemId

/-- `handle_drag_start` (dragsource-old.js lines 1068-1099).  It writes the
transport fields `ctat/group`, `ctat/source`, `original`, `text` and a
`ctat/id/<hid>` type tag, and registers the candidate under `hash` in
`CTATDragSource.dragging`.  No statement of the function touches any
container or item, which the returned state makes explicit. -/
def handle_drag_start (s : PageState) (origin : Container) (itemId suffix : String) :
    Transport × PageState :=
  let cid := candidateId origin itemId suffix
  let hid := hash cid
  let tp : Transport :=
    { hasGroupType := true
      groupData := origin.name
      sourceData := origin.id
      originalData := itemId
      textData := cid
      idTags := [hid] }
  (tp, { s with table := tableInsert s.table hid { id := cid, group := origin.name, source := origin.id } })

/-- `handle_drag_end` (dragsource-old.js lines 1101-1114): for every
transport type matching `ctat/id/(.+)`, delete the side-table entry if
present. -/
def handle_drag_end (idTags : List Int) (tb : DragTable) : DragTable :=
  idTags.foldl
    (fun acc hid => if (tableLookup acc hid).isSome then tableDelete acc hid else acc)
    tb

/-- The `dragover` handler (dragsource-old.js lines 1184-1229 / dragbp.js
lines 183-228) computing `allow_drop`.  The handler is registered on the
container, so `this` (the group name, the container id, the limit and the
child count) is the hovered container; the final override however reads
`$(e.target).attr('data-ctat-purpose')` from `e.target`, the element under
the cursor, which is the container itself when hovering its empty area
(then `eTarget = c.purpose`) but a child item, normally without that
attribute, when hovering an item (then `eTarget = none`).  The attribute of
the event target is therefore a separate input. -/
def dragover (c : Container) (t : Transport) (tb : DragTable)
    (eTarget : Option String) : Bool :=
  let base :=
    if c.enabled then
      if limitOk c.maxCardinality c.children.length then
        if t.hasGroupType then
          if t.textData ≠ "" then
            t.groupData == c.name && t.sourceData != c.id
          else
            t.idTags.any fun hid =>
              match tableLookup tb hid with
              | some entry => entry.group == c.name && entry.source != c.id
              | none => false
        else false
      else false
    else false
  if purposeIs eTarget "source" then false else base

/-!  Node operations used by the drop handler and enable propagation. -/

/-- `classList.remove("CTAT--correct"); ... ("CTAT--incorrect"); ...
("CTAT--hint")` on one element (dragsource-old.js lines 1279-1281 for the
origin, line 1322 via `removeClass` for the dropped item). -/
def stripMarkers (n : Node) : Node :=
  match n with
  | .mk i cls v dr dis ch =>
      .mk i
        (cls.filter fun s => s ≠ "CTAT--correct" ∧ s ≠ "CTAT--incorrect" ∧ s ≠ "CTAT--hint")
        v dr dis ch

/-- `classList.contains(s)` on a class list. -/
def listHas (l : List String) (s : String) : Bool :=
  match l with
  | [] => false
  | a :: t => a == s || listHas t s

def hasGradeMarker (n : Node) : Bool :=
  listHas n.classes "CTAT--correct" || listHas n.classes "CTAT--incorrect" ||
    listHas n.classes "CTAT--hint"

mutual

/-- `pointer.removeDisabled` (dragsource-old.js lines 1130-1137): clear the
`disabled` property on a node and, recursively, on all of its children. -/
def removeDisabled : Node → Node
  | .mk i cls v dr _ ch => .mk i cls v dr false (removeDisabledList ch)

def removeDisabledList : NodeList → NodeList
  | .nil => .nil
  | .cons h t => .cons (removeDisabled h) (removeDisabledList t)

end

mutual

/-- Every node of the subtree has `disabled = false`. -/
def allEnabled : Node → Bool
  | .mk _ _ _ _ dis ch => !dis && allEnabledList ch

def allEnabledList : NodeList → Bool
  | .nil => true
  | .cons h t => allEnabled h && allEnabledList t

end

/-- One step of the equal-length reconciliation loop (dragsource-old.js
lines 1284-1288): copy the class attribute, the value and the inner
content of an origin child onto the corresponding clone child. -/
def copyOnto (ic oc : Node) : Node :=
  match ic with
  | .mk i _ _ dr dis _ => .mk i oc.classes oc.value dr dis oc.children

def zipCopy : NodeList → NodeList → NodeList
  | .nil, _ => .nil
  | .cons _ _, .nil => .nil
  | .cons a as, .cons b bs => .cons (copyOnto a b) (zipCopy as bs)

/-- The clone path of the drop handler (dragsource-old.js lines 1249-1310):
`cloneNode(false)` copies the top node without children, the clone gets the
candidate id and `draggable = true`, nested-component initialization may
populate children (`initChildren`), and the children are then reconciled
against the origin: copied field-by-field when the counts agree, replaced
by deep copies of the origin children otherwise. -/
def cloneReconcile (original : Node) (initChildren : NodeList) (newId : String) : Node :=
  match original with
  | .mk _ cls v _ dis ch =>
      let kids :=
        if initChildren.length = ch.length then zipCopy initChildren ch else ch
      .mk newId cls v true dis kids

/-- `document.getElementById(item_id)` decides the path (dragsource-old.js
lines 1244-1249): an existing element is moved, otherwise a clone is
materialized from the origin.  Returns the dropped item together with the
post-drop state of the origin (whose grading markers the clone path strips,
lines 1279-1281). -/
def resolveItem (existing : Option Node) (original : Node) (initChildren : NodeList)
    (itemId : String) : Node × Node :=
  match existing with
  | some it => (it, original)
  | none => (cloneReconcile original initChildren itemId, stripMarkers original)

/-!  The drop handler (dragsource-old.js lines 1234-1334; dragbp.js lines
233-327 is the same handler without the overflow step).  Observable
outcome: the new state of the target container, the post-drop state of the
origin item, and the `(action, input)` pairs recorded through
`setActionInput`/`processAction`. -/

structure DropOutcome where
  target : Container
  originalAfter : Node
  actions : List (String × String)

/-- The drop handler.  It removes the `CTATDragSource--valid-drop` class
first, returns with no effect when the component is disabled, and otherwise
appends the resolved item and dispatches on `data-ctat-purpose`:
`trashcan` and `source` remove the item again, `destination` (or a falsy
purpose) strips the grading markers, re-enables the item subtree, records
`("Add", item_id)` and enforces `data-ctat-max-overflow` by removing the
first child when the count exceeds it. -/
def dropHandler (c : Container) (item_id : String) (existing : Option Node)
    (original : Node) (initChildren : NodeList) : DropOutcome :=
  let c1 : Container := { c with validDrop := false }
  if c.enabled then
    let res := resolveItem existing original initChildren item_id
    let item0 := res.1
    let originalAfter := res.2
    if purposeIs c.purpose "trashcan" then
      { target := c1, originalAfter := originalAfter, actions := [] }
    else if purposeIs c.purpose "source" then
      { target := c1, originalAfter := originalAfter, actions := [] }
    else if purposeIs c.purpose "destination" || purposeFalsy c.purpose then
      let item1 := removeDisabled (stripMarkers item0)
      let kids := c.children.append (.cons item1 .nil)
      let kids2 :=
        match c.maxOverflow with
        | some k => if (kids.length : Int) > k then kids.tail else kids
        | none => kids
      { target := { c1 with children := kids2 }
        originalAfter := originalAfter
        actions := [("Add", item_id)] }
    else
      { target := { c1 with children := c.children.append (.cons item0 .nil) }
        originalAfter := originalAfter
        actions := [] }
  else
    { target := c1, originalAfter := original, actions := [] }

/-!  Enable/disable propagation. -/

/-- Modelled from the spec: the base class `CTAT.Component.Base.Tutorable`
is not part of the repository; its `setEnabled` (called here as
`super_setEnabled`) toggles the enabled flag of the component that
`getEnabled` reads, per spec section 4.4 and section 6
(`HostBridge.isEnabled`). -/
def super_setEnabled (c : Container) (b : Bool) : Container :=
  { c with enabled := b }

/-- `$(dnd).children().attr('draggable', bool)` (dragsource-old.js line
1368): set the draggable attribute on each direct child. -/
def setChildrenDraggable : NodeList → Bool → NodeList
  | .nil, _ => .nil
  | .cons h t, b =>
      .cons (match h with | .mk i cls v _ dis ch => .mk i cls v b dis ch)
        (setChildrenDraggable t b)

mutual

/-- `$(dnd).find('.CTAT--correct').attr('draggable', false)`
(dragsource-old.js line 1370): every descendant carrying the
`CTAT--correct` class becomes non-draggable. -/
def lockCorrect : Node → Node
  | .mk i cls v dr dis ch =>
      .mk i cls v (if listHas cls "CTAT--correct" then false else dr) dis
        (lockCorrectList ch)

def lockCorrectList : NodeList → NodeList
  | .nil => .nil
  | .cons h t => .cons (lockCorrect h) (lockCorrectList t)

end

/-- `setEnabled` (dragsource-old.js lines 1364-1373): call the base-class
setter, propagate the flag to every child, and with the disable-on-correct
policy force correct-marked elements non-draggable. -/
def setEnabled (c : Container) (b : Bool) (disableOnCorrect : Bool) : Container :=
  let c1 := super_setEnabled c b
  let kids := setChildrenDraggable c1.children b
  let kids2 := if disableOnCorrect then lockCorrectList kids else kids
  { c1 with children := kids2 }

/-- The item as committed by the destination branch: the resolved item with
grading markers stripped and its subtree re-enabled (dragsource-old.js
lines 1322-1323). -/
def committedItem (ex : Option Node) (orig : Node) (initC : NodeList)
    (item_id : String) : Node :=
  removeDisabled (stripMarkers (resolveItem ex orig initC item_id).1)

/-- The destination-branch membership: the committed item appended, then
the overflow rule of dragsource-old.js lines 1328-1331 applied. -/
def destChildren (c : Container) (it : Node) : NodeList :=
  let kids := c.children.append (.cons it .nil)
  match c.maxOverflow with
  | some k => if (kids.length : Int) > k then kids.tail else kids
  | none => kids

/-!  Concrete sample values used by witnesses and counterexamples. -/

def nA : Node := .mk "a" ["CTATDragSource--item"] "" true false .nil

def nB : Node := .mk "b" ["CTATDragSource--item"] "" true false .nil

def nX : Node := .mk "x" ["CTATDragSource--item"] "" true false .nil

def nMarked : Node := .mk "o1" ["CTATDragSource--item", "CTAT--correct"] "" true false .nil

def nCorrectChild : Node := .mk "k" ["CTAT--correct"] "" false false .nil

def cSrc : Container :=
  { id := "S", name := "g1", purpose := some "source", maxCardinality := none,
    maxOverflow := none, enabled := true, validDrop := false,
    children := .cons nMarked .nil }

def cDest : Container :=
  { id := "D", name := "g1", purpose := some "destination", maxCardinality := some 2,
    maxOverflow := none, enabled := true, validDrop := false,
    children := .cons nA .nil }

def cOther : Container :=
  { id := "B", name := "g2", purpose := some "destination", maxCardinality := none,
    maxOverflow := none, enabled := true, validDrop := false, children := .nil }

def cOver : Container :=
  { id := "D2", name := "g1", purpose := some "destination", maxCardinality := none,
    maxOverflow := some 1, enabled := true, validDrop := true,
    children := .cons nA (.cons nB .nil) }

def cDis : Container :=
  { id := "C", name := "g1", purpose := some "destination", maxCardinality := none,
    maxOverflow := none, enabled := false, validDrop := true,
    children := .cons nA .nil }

def cLock : Container :=
  { id := "L", name := "g1", purpose := some "destination", maxCardinality := none,
    maxOverflow := none, enabled := false, validDrop := false,
    children := .cons nCorrectChild .nil }

def tpW : Transport :=
  { hasGroupType := true, groupData := "g1", sourceData := "S", originalData := "x",
    textData := "x", idTags := [] }

def sP : PageState := { containers := [cSrc, cDest], table := [] }

def tpHover : Transport :=
  { hasGroupType := true, groupData := "g1", sourceData := "D", originalData := "a",
    textData := "a", idTags := [] }

/-!  Helper lemmas. -/

theorem toInt32_bounds (n : Int) : -2147483648 ≤ toInt32 n ∧ toInt32 n < 2147483648 := by
  have h1 : 0 ≤ n % 4294967296 := Int.emod_nonneg n (by norm_num)
  have h2 : n % 4294967296 < 4294967296 := Int.emod_lt_of_pos n (by norm_num)
  simp only [toInt32]
  split <;> omega

theorem hashStep_bounds (a : Int) (c : Nat) :
    -2147483648 ≤ hashStep a c ∧ hashStep a c < 2147483648 := by
  unfold hashStep
  exact toInt32_bounds _

theorem hash_foldl_bounds (l : List Char) (a : Int)
    (h1 : -2147483648 ≤ a) (h2 : a < 2147483648) :
    -2147483648 ≤ l.foldl (fun x ch => hashStep x ch.toNat) a ∧
      l.foldl (fun x ch => hashStep x ch.toNat) a < 2147483648 := by
  induction l generalizing a with
  | nil => exact ⟨h1, h2⟩
  | cons ch rest ih =>
      have hb := hashStep_bounds a ch.toNat
      exact ih (hashStep a ch.toNat) hb.1 hb.2

theorem tableLookup_insert_self (tb : DragTable) (h : Int) (e : DragEntry) :
    tableLookup (tableInsert tb h e) h = some e := by
  simp [tableInsert, tableLookup]

theorem tableLookup_delete_self (tb : DragTable) (h : Int) :
    tableLookup (tableDelete tb h) h = none := by
  induction tb with
  | nil => rfl
  | cons p rest ih =>
      unfold tableDelete at ih ⊢
      rw [List.filter_cons]
      split
      · next hp =>
          have hne : p.1 ≠ h := by simpa using hp
          unfold tableLookup
          rw [if_neg hne]
          exact ih
      · exact ih

theorem dragover_disabled (c : Container) (t : Transport) (tb : DragTable)
    (et : Option String) (h : c.enabled = false) : dragover c t tb et = false := by
  simp [dragover, h]

theorem dragover_limit_false (c : Container) (t : Transport) (tb : DragTable)
    (et : Option String) (h : limitOk c.maxCardinality c.children.length = false) :
    dragover c t tb et = false := by
  simp [dragover, h]

theorem dragover_char (c : Container) (t : Transport) (tb : DragTable)
    (et : Option String) :
    dragover c t tb et =
      (!purposeIs et "source" && (c.enabled &&
        (limitOk c.maxCardinality c.children.length && (t.hasGroupType &&
        (if t.textData ≠ "" then t.groupData == c.name && t.sourceData != c.id
         else t.idTags.any fun hid =>
           match tableLookup tb hid with
           | some entry => entry.group == c.name && entry.source != c.id
           | none => false))))) := by
  simp only [dragover]
  cases hP : purposeIs et "source" <;>
    cases hE : c.enabled <;>
      cases hL : limitOk c.maxCardinality c.children.length <;>
        cases hG : t.hasGroupType <;>
          simp [hP, hE, hL, hG]

theorem dragover_eq_false_of (c : Container) (t : Transport) (tb : DragTable)
    (et : Option String)
    (hdir : t.groupData ≠ c.name ∨ t.sourceData = c.id)
    (hside : ∀ hid ∈ t.idTags, ∀ e, tableLookup tb hid = some e →
        e.group ≠ c.name ∨ e.source = c.id) :
    dragover c t tb et = false := by
  have hx : (if t.textData ≠ "" then t.groupData == c.name && t.sourceData != c.id
      else t.idTags.any fun hid =>
        match tableLookup tb hid with
        | some entry => entry.group == c.name && entry.source != c.id
        | none => false) = false := by
    split
    · rcases hdir with h | h
      · simp [h]
      · simp [h]
    · rw [List.any_eq_false]
      intro hid hmem
      cases heq : tableLookup tb hid with
      | none => simp
      | some e =>
          rcases hside hid hmem e heq with h | h
          · simp [h]
          · simp [h]
  rw [dragover_char, hx]
  simp

theorem dragover_true_direct (c : Container) (t : Transport) (tb : DragTable)
    (et : Option String) (h : dragover c t tb et = true) (ht : t.textData ≠ "") :
    t.groupData = c.name ∧ t.sourceData ≠ c.id := by
  rw [dragover_char, if_pos ht] at h
  simp only [Bool.and_eq_true] at h
  simpa using h.2.2.2.2

theorem dragover_true_side (c : Container) (t : Transport) (tb : DragTable)
    (et : Option String) (h : dragover c t tb et = true) (ht : t.textData = "") :
    ∃ hid ∈ t.idTags, ∃ e, tableLookup tb hid = some e ∧
      e.group = c.name ∧ e.source ≠ c.id := by
  rw [dragover_char, if_neg (by simp [ht])] at h
  simp only [Bool.and_eq_true] at h
  have hany := h.2.2.2.2
  rw [List.any_eq_true] at hany
  obtain ⟨hid, hmem, hf⟩ := hany
  refine ⟨hid, hmem, ?_⟩
  cases heq : tableLookup tb hid with
  | none => rw [heq] at hf; exact absurd hf (by simp)
  | some e =>
      rw [heq] at hf
      simp at hf
      exact ⟨e, rfl, hf.1, hf.2⟩

theorem length_append_single : ∀ (l : NodeList) (x : Node),
    (l.append (.cons x .nil)).length = l.length + 1
  | .nil, _ => rfl
  | .cons h t, x => by
      simp [NodeList.append, NodeList.length, length_append_single t x]

theorem length_tail (l : NodeList) : l.tail.length = l.length - 1 := by
  cases l <;> simp [NodeList.tail, NodeList.length]

theorem listHas_filter_markers (l : List String) (s : String)
    (hs : s = "CTAT--correct" ∨ s = "CTAT--incorrect" ∨ s = "CTAT--hint") :
    listHas
      (l.filter fun x =>
        x ≠ "CTAT--correct" ∧ x ≠ "CTAT--incorrect" ∧ x ≠ "CTAT--hint") s = false := by
  induction l with
  | nil => rfl
  | cons a t ih =>
      rw [List.filter_cons]
      split
      · next hq =>
          simp only [decide_eq_true_eq] at hq
          have hne : (a == s) = false := by
            rcases hs with h | h | h <;> subst h <;> simp [hq.1, hq.2.1, hq.2.2]
          unfold listHas
          rw [hne]
          simpa using ih
      · exact ih

theorem removeDisabled_classes (n : Node) : (removeDisabled n).classes = n.classes := by
  cases n
  rfl

theorem stripMarkers_no_marker (n : Node) : hasGradeMarker (stripMarkers n) = false := by
  cases n with
  | mk i cls v dr dis ch =>
      simp only [stripMarkers, hasGradeMarker, Node.classes]
      rw [listHas_filter_markers cls _ (Or.inl rfl),
        listHas_filter_markers cls _ (Or.inr (Or.inl rfl)),
        listHas_filter_markers cls _ (Or.inr (Or.inr rfl))]
      rfl

mutual

theorem allEnabled_removeDisabled : ∀ n : Node, allEnabled (removeDisabled n) = true
  | .mk i cls v dr dis ch => by
      simp [removeDisabled, allEnabled, allEnabledList_removeDisabledList ch]

theorem allEnabledList_removeDisabledList :
    ∀ l : NodeList, allEnabledList (removeDisabledList l) = true
  | .nil => rfl
  | .cons h t => by
      simp [removeDisabledList, allEnabledList, allEnabled_removeDisabled h,
        allEnabledList_removeDisabledList t]

end

/-!  C9.  The identity hash. -/

/-- C9: `hash` is a total deterministic function (it is a Lean function of
the input string alone); its accumulator is truncated to the signed 32-bit
range at every step, every result lies in `[-2^31, 2^31)`, and the empty
string hashes to `0`. -/
theorem hash_int32_range :
    (∀ (a : Int) (c : Nat), -2147483648 ≤ hashStep a c ∧ hashStep a c < 2147483648) ∧
    (∀ s : String, -2147483648 ≤ hash s ∧ hash s < 2147483648) ∧
    hash "" = 0 := by
  refine ⟨hashStep_bounds, fun s => ?_, rfl⟩
  exact hash_foldl_bounds s.data 0 (by norm_num) (by norm_num)

/-!  C3.  A Source-purpose target should always reject, but the override at
dragsource-old.js line 1219 / dragbp.js line 218 reads
`$(e.target).attr('data-ctat-purpose')`, and `e.target` is the element
under the cursor: hovering a child item of the Source container (an element
without that attribute) skips the override, although the code comments it
with `dropping in source not allowed`. -/

/-- C3: the Source container `cSrc` (purpose `source`, group g1) rejects a
same-group drag from container D when the cursor is over the container
element itself (`eTarget = cSrc.purpose`), but the same drag is allowed
when the cursor is over a child item carrying no purpose attribute
(`eTarget = none`) — contradicting the claim that a Source-purpose target
rejects regardless. -/
theorem evaluate_source_target_bug :
    purposeIs cSrc.purpose "source" = true ∧
    dragover cSrc tpHover [] cSrc.purpose = false ∧
    dragover cSrc tpHover [] none = true := by
  refine ⟨rfl, rfl, ?_⟩
  decide

theorem dragover_after_start_false (s : PageState) (A B : Container)
    (itemId suffix : String) (exposed : Bool) (et : Option String)
    (hAB : A.name ≠ B.name ∨ A.id = B.id) :
    dragover B (maskText exposed (handle_drag_start s A itemId suffix).1)
      (handle_drag_start s A itemId suffix).2.table et = false := by
  have hg : (maskText exposed (handle_drag_start s A itemId suffix).1).groupData = A.name := by
    cases exposed <;> rfl
  have hsc : (maskText exposed (handle_drag_start s A itemId suffix).1).sourceData = A.id := by
    cases exposed <;> rfl
  have htags : (maskText exposed (handle_drag_start s A itemId suffix).1).idTags =
      [hash (candidateId A itemId suffix)] := by
    cases exposed <;> rfl
  have htable : (handle_drag_start s A itemId suffix).2.table =
      tableInsert s.table (hash (candidateId A itemId suffix))
        { id := candidateId A itemId suffix, group := A.name, source := A.id } := rfl
  apply dragover_eq_false_of
  · rcases hAB with h | h
    · exact Or.inl (by rw [hg]; exact h)
    · exact Or.inr (by rw [hsc]; exact h)
  · intro hid hmem e heq
    rw [htags] at hmem
    simp only [List.mem_singleton] at hmem
    subst hmem
    rw [htable, tableLookup_insert_self] at heq
    injection heq with he
    subst he
    rcases hAB with h | h
    · exact Or.inl h
    · exact Or.inr h

/-!  C1.  Group isolation and no self-drop, on both resolution paths. -/

/-- C1: `dragover` yields `allow_drop = true` only when the candidate group
equals the target group and the candidate origin container differs from the
target, both on the direct-payload path (conjunct 1) and on the side-table
path (conjunct 2); consequently a drag started in container `A` is rejected
by every target `B` of a different group under either payload exposure
(conjunct 3), and is rejected by its own origin container (conjunct 4). -/
theorem evaluate_group_isolation :
    (∀ (c : Container) (t : Transport) (tb : DragTable) (et : Option String),
        dragover c t tb et = true → t.textData ≠ "" →
          t.groupData = c.name ∧ t.sourceData ≠ c.id) ∧
    (∀ (c : Container) (t : Transport) (tb : DragTable) (et : Option String),
        dragover c t tb et = true → t.textData = "" →
          ∃ hid ∈ t.idTags, ∃ e, tableLookup tb hid = some e ∧
            e.group = c.name ∧ e.source ≠ c.id) ∧
    (∀ (s : PageState) (A B : Container) (itemId suffix : String) (exposed : Bool)
        (et : Option String),
        A.name ≠ B.name →
          dragover B (maskText exposed (handle_drag_start s A itemId suffix).1)
            (handle_drag_start s A itemId suffix).2.table et = false) ∧
    (∀ (s : PageState) (A : Container) (itemId suffix : String) (exposed : Bool)
        (et : Option String),
        dragover A (maskText exposed (handle_drag_start s A itemId suffix).1)
          (handle_drag_start s A itemId suffix).2.table et = false) := by
  refine ⟨dragover_true_direct, dragover_true_side, ?_, ?_⟩
  · intro s A B itemId suffix exposed et h
    exact dragover_after_start_false s A B itemId suffix exposed et (Or.inl h)
  · intro s A itemId suffix exposed et
    exact dragover_after_start_false s A A itemId suffix exposed et (Or.inr rfl)

/-- C1 witness: a drag started in the group-`g1` source container is
rejected by the group-`g2` container hovered at its own element. -/
theorem evaluate_group_isolation_witness :
    dragover cOther (maskText true (handle_drag_start sP cSrc "x" "7").1)
      (handle_drag_start sP cSrc "x" "7").2.table cOther.purpose = false :=
  evaluate_group_isolation.2.2.1 sP cSrc cOther "x" "7" true cOther.purpose (by decide)

/-!  C2.  Cardinality limit. -/

/-- C2: with a present non-negative limit `k` and at least `k` children the
target rejects (conjunct 1); with an absent or negative limit the child
count has no influence on the evaluation (conjunct 2); and strictly below
the limit the evaluation succeeds whenever the other rules (enabled, group
marker, group match, no self-drop, non-source target) hold on the direct
resolution path (conjunct 3). -/
theorem evaluate_cardinality :
    (∀ (c : Container) (t : Transport) (tb : DragTable) (et : Option String) (k : Int),
        c.maxCardinality = some k → 0 ≤ k → k ≤ (c.children.length : Int) →
          dragover c t tb et = false) ∧
    (∀ (c : Container) (t : Transport) (tb : DragTable) (et : Option String)
        (l l2 : NodeList),
        (c.maxCardinality = none ∨ ∃ k, c.maxCardinality = some k ∧ k < 0) →
          dragover { c with children := l } t tb et =
            dragover { c with children := l2 } t tb et) ∧
    (∀ (c : Container) (t : Transport) (tb : DragTable) (et : Option String) (k : Int),
        c.maxCardinality = some k → (c.children.length : Int) < k →
        c.enabled = true → t.hasGroupType = true → t.textData ≠ "" →
        t.groupData = c.name → t.sourceData ≠ c.id →
        purposeIs et "source" = false →
          dragover c t tb et = true) := by
  refine ⟨?_, ?_, ?_⟩
  · intro c t tb et k hk h0 hlen
    apply dragover_limit_false
    rw [hk]
    simp only [limitOk]
    simp only [Bool.or_eq_false_iff, decide_eq_false_iff_not, not_lt]
    omega
  · intro c t tb et l l2 h
    have h1 : ∀ n : Nat, limitOk c.maxCardinality n = true := by
      intro n
      rcases h with h | ⟨k, hk, hneg⟩
      · simp [limitOk, h]
      · simp [limitOk, hk, hneg]
    rw [dragover_char, dragover_char]
    simp only [h1]
  · intro c t tb et k hk hlen hE hG ht hg hs hP
    rw [dragover_char, if_pos ht]
    simp [hP, hE, hG, limitOk, hk, hg, hs, hlen]

/-- C2 witness: a destination with limit 2 holding one child accepts a
matching same-group drag from elsewhere, hovered at its own element. -/
theorem evaluate_cardinality_witness : dragover cDest tpW [] cDest.purpose = true :=
  evaluate_cardinality.2.2 cDest tpW [] cDest.purpose 2 rfl (by decide) rfl rfl
    (by decide) rfl (by decide) (by decide)

/-!  C6.  Side-table cleanup. -/

/-- C6: a `handle_drag_start` registration under `hash(candidateId)`
followed by `handle_drag_end` over the transport type tags leaves no
side-table entry for that hash (conjunct 1); the same holds over an
arbitrary intermediate table, so a commit in between is irrelevant
(conjunct 2); `handle_drag_end` on an absent entry leaves the table
untouched (conjunct 3) and is idempotent (conjunct 4). -/
theorem side_table_cleanup :
    (∀ (s : PageState) (origin : Container) (itemId suffix : String),
        tableLookup
          (handle_drag_end (handle_drag_start s origin itemId suffix).1.idTags
            (handle_drag_start s origin itemId suffix).2.table)
          (hash (candidateId origin itemId suffix)) = none) ∧
    (∀ (tb : DragTable) (hid : Int),
        tableLookup (handle_drag_end [hid] tb) hid = none) ∧
    (∀ (tb : DragTable) (hid : Int),
        tableLookup tb hid = none → handle_drag_end [hid] tb = tb) ∧
    (∀ (tb : DragTable) (hid : Int),
        handle_drag_end [hid] (handle_drag_end [hid] tb) = handle_drag_end [hid] tb) := by
  have single : ∀ (tb : DragTable) (hid : Int),
      handle_drag_end [hid] tb =
        if (tableLookup tb hid).isSome then tableDelete tb hid else tb :=
    fun tb hid => rfl
  have part2 : ∀ (tb : DragTable) (hid : Int),
      tableLookup (handle_drag_end [hid] tb) hid = none := by
    intro tb hid
    rw [single]
    cases h : tableLookup tb hid with
    | none => simp [h]
    | some e => simp [h, tableLookup_delete_self]
  have part3 : ∀ (tb : DragTable) (hid : Int),
      tableLookup tb hid = none → handle_drag_end [hid] tb = tb := by
    intro tb hid h
    rw [single, h]
    rfl
  exact ⟨fun s origin itemId suffix => part2 _ _, part2, part3,
    fun tb hid => part3 _ _ (part2 tb hid)⟩

/-- C6 witness: ending a drag over an empty side table leaves it empty. -/
theorem side_table_cleanup_witness :
    handle_drag_end [(0 : Int)] ([] : DragTable) = [] :=
  side_table_cleanup.2.2.1 [] 0 rfl

/-!  C10.  Drops always clear the valid-drop marker. -/

/-- C10: every drop clears the `CTATDragSource--valid-drop` class before the
enablement check (conjunct 1, with no hypothesis on enablement), and a drop
on a disabled target additionally commits nothing: the membership is
unchanged and no action is recorded (conjunct 2). -/
theorem drop_clears_valid_drop :
    (∀ (c : Container) (item_id : String) (ex : Option Node) (orig : Node)
        (initC : NodeList),
        (dropHandler c item_id ex orig initC).target.validDrop = false) ∧
    (∀ (c : Container) (item_id : String) (ex : Option Node) (orig : Node)
        (initC : NodeList),
        c.enabled = false →
          (dropHandler c item_id ex orig initC).target.children = c.children ∧
          (dropHandler c item_id ex orig initC).actions = []) := by
  constructor
  · intro c item_id ex orig initC
    simp only [dropHandler]
    repeat' split
    all_goals rfl
  · intro c item_id ex orig initC h
    constructor <;> simp [dropHandler, h]

/-- C10 witness: a drop on a disabled container with the valid-drop marker
set keeps its membership, records nothing, and still ends unmarked. -/
theorem drop_clears_valid_drop_witness :
    (dropHandler cDis "x" none nA NodeList.nil).target.children = cDis.children ∧
    (dropHandler cDis "x" none nA NodeList.nil).actions = [] :=
  drop_clears_valid_drop.2 cDis "x" none nA NodeList.nil rfl

/-!  C8.  Enable/disable propagation. -/

theorem draggable_setCD : ∀ (l : NodeList) (b : Bool),
    ∀ n ∈ (setChildrenDraggable l b).toList, n.draggable = b
  | .nil, b => by
      intro n hn
      simp [setChildrenDraggable, NodeList.toList] at hn
  | .cons h t, b => by
      intro n hn
      cases h with
      | mk i cls v dr dis ch =>
          simp only [setChildrenDraggable, NodeList.toList, List.mem_cons] at hn
          rcases hn with rfl | hn
          · rfl
          · exact draggable_setCD t b n hn

theorem draggable_lockCD : ∀ (l : NodeList) (b : Bool),
    ∀ n ∈ (lockCorrectList (setChildrenDraggable l b)).toList,
      n.draggable = (b && !listHas n.classes "CTAT--correct")
  | .nil, b => by
      intro n hn
      simp [setChildrenDraggable, lockCorrectList, NodeList.toList] at hn
  | .cons h t, b => by
      intro n hn
      cases h with
      | mk i cls v dr dis ch =>
          simp only [setChildrenDraggable, lockCorrectList, lockCorrect,
            NodeList.toList, List.mem_cons] at hn
          rcases hn with rfl | hn
          · cases hc : listHas cls "CTAT--correct" <;>
              simp [Node.draggable, Node.classes, hc]
          · exact draggable_lockCD t b n hn

/-- C8: `setEnabled(container, b)` propagates `draggable = b` to every
current child, except that with the disable-on-correct policy active a
child carrying the `CTAT--correct` class stays non-draggable even for
`b = true` (conjunct 1); and after `setEnabled(container, false)` every
`dragover` evaluation targeting the container yields false (conjunct 2). -/
theorem setEnabled_propagation :
    (∀ (c : Container) (b d : Bool),
        ∀ n ∈ (setEnabled c b d).children.toList,
          n.draggable = (b && !(d && listHas n.classes "CTAT--correct"))) ∧
    (∀ (c : Container) (d : Bool) (t : Transport) (tb : DragTable)
        (et : Option String),
        dragover (setEnabled c false d) t tb et = false) := by
  constructor
  · intro c b d n hn
    cases d
    · simp only [setEnabled, super_setEnabled, if_neg Bool.false_ne_true] at hn
      have := draggable_setCD c.children b n (by simpa using hn)
      simpa using this
    · simp only [setEnabled, super_setEnabled, if_pos rfl] at hn
      have := draggable_lockCD c.children b n (by simpa using hn)
      simpa using this
  · intro c d t tb et
    exact dragover_disabled _ t tb et rfl

/-- C8 witness: re-enabling the locked container with the policy active
keeps the correct-marked child non-draggable. -/
theorem setEnabled_propagation_witness :
    Node.draggable nCorrectChild =
      (true && !(true && listHas (Node.classes nCorrectChild) "CTAT--correct")) :=
  setEnabled_propagation.1 cLock true true nCorrectChild
    (by simp [setEnabled, super_setEnabled, setChildrenDraggable, lockCorrectList,
      lockCorrect, listHas, NodeList.toList, cLock, nCorrectChild])

/-!  C7.  Destination commits. -/

theorem dest_not_trash_source (p : Option String)
    (h : (purposeIs p "destination" || purposeFalsy p) = true) :
    purposeIs p "trashcan" = false ∧ purposeIs p "source" = false := by
  cases p with
  | none => exact ⟨rfl, rfl⟩
  | some v =>
      simp only [purposeIs, purposeFalsy, Bool.or_eq_true, beq_iff_eq] at h
      rcases h with h | h <;> subst h <;> exact ⟨by decide, by decide⟩

theorem dropHandler_dest (c : Container) (item_id : String) (ex : Option Node)
    (orig : Node) (initC : NodeList) (hE : c.enabled = true)
    (hD : (purposeIs c.purpose "destination" || purposeFalsy c.purpose) = true) :
    dropHandler c item_id ex orig initC =
      { target :=
          { c with
            validDrop := false
            children := destChildren c (committedItem ex orig initC item_id) }
        originalAfter := (resolveItem ex orig initC item_id).2
        actions := [("Add", item_id)] } := by
  obtain ⟨hT, hS⟩ := dest_not_trash_source c.purpose hD
  simp [dropHandler, hE, hT, hS, hD, destChildren, committedItem]

theorem hasGradeMarker_removeDisabled (n : Node) :
    hasGradeMarker (removeDisabled n) = hasGradeMarker n := by
  simp [hasGradeMarker, removeDisabled_classes]

/-- C7: an enabled commit into a destination-purpose container — including
an unset (falsy) purpose, since destination is the default — records
exactly one `("Add", item id)` action, and with no overflow limit the new
membership is the old children plus one appended item that carries no
grading marker and whose entire subtree is re-enabled (conjunct 1); a
trashcan or source commit records no action (conjunct 2). -/
theorem destination_commit_effects :
    (∀ (c : Container) (item_id : String) (ex : Option Node) (orig : Node)
        (initC : NodeList),
        c.enabled = true →
        (purposeIs c.purpose "destination" || purposeFalsy c.purpose) = true →
          (dropHandler c item_id ex orig initC).actions = [("Add", item_id)] ∧
          (c.maxOverflow = none →
            ∃ it, (dropHandler c item_id ex orig initC).target.children =
                c.children.append (.cons it .nil) ∧
              hasGradeMarker it = false ∧ allEnabled it = true)) ∧
    (∀ (c : Container) (item_id : String) (ex : Option Node) (orig : Node)
        (initC : NodeList),
        c.enabled = true →
        (purposeIs c.purpose "trashcan" = true ∨ purposeIs c.purpose "source" = true) →
          (dropHandler c item_id ex orig initC).actions = []) := by
  constructor
  · intro c item_id ex orig initC hE hD
    rw [dropHandler_dest c item_id ex orig initC hE hD]
    refine ⟨rfl, fun hov => ?_⟩
    refine ⟨committedItem ex orig initC item_id, ?_, ?_, ?_⟩
    · show destChildren c (committedItem ex orig initC item_id) =
        c.children.append (.cons (committedItem ex orig initC item_id) .nil)
      simp [destChildren, hov]
    · simp [committedItem, hasGradeMarker_removeDisabled, stripMarkers_no_marker]
    · simp [committedItem, allEnabled_removeDisabled]
  · intro c item_id ex orig initC hE hTS
    rcases hTS with h | h
    · simp [dropHandler, hE, h]
    · cases ht : purposeIs c.purpose "trashcan" <;> simp [dropHandler, hE, h, ht]

/-- C7 witness: a concrete destination commit records one Add action and
appends one clean, re-enabled item. -/
theorem destination_commit_effects_witness :
    (dropHandler cDest "x" (some nX) nX NodeList.nil).actions = [("Add", "x")] ∧
    (∃ it, (dropHandler cDest "x" (some nX) nX NodeList.nil).target.children =
        cDest.children.append (.cons it .nil) ∧
      hasGradeMarker it = false ∧ allEnabled it = true) :=
  ⟨(destination_commit_effects.1 cDest "x" (some nX) nX NodeList.nil rfl (by decide)).1,
   (destination_commit_effects.1 cDest "x" (some nX) nX NodeList.nil rfl (by decide)).2 rfl⟩

/-!  C4.  Overflow eviction. -/

/-- C4 counterexample: a destination with overflow limit 1 already holding
two children accepts a drop (cardinality is unset), the resulting count 3
exceeds the limit, and the handler removes only the single oldest child,
leaving 2 children — not the 1 child the claim promises. -/
theorem overflow_count_cex :
    purposeIs cOver.purpose "destination" = true ∧
    cOver.maxOverflow = some 1 ∧
    ((cOver.children.length : Int) + 1 > 1) ∧
    (dropHandler cOver "x" (some nX) nX NodeList.nil).target.children.length = 2 ∧
    ¬ (dropHandler cOver "x" (some nX) nX NodeList.nil).target.children.length = 1 := by
  refine ⟨rfl, rfl, by decide, ?_, ?_⟩ <;> decide

/-- C4 (amended): after an enabled commit into a destination with overflow
limit `k`, when the resulting count exceeds `k` exactly the oldest (first)
child is removed, leaving one child fewer than the resulting count — equal
to `k` precisely when the count exceeded the limit by exactly one; below or
at the limit nothing is evicted, and with no overflow limit set no child is
ever evicted. -/
theorem overflow_evicts_oldest :
    ∀ (c : Container) (item_id : String) (ex : Option Node) (orig : Node)
      (initC : NodeList),
      c.enabled = true →
      (purposeIs c.purpose "destination" || purposeFalsy c.purpose) = true →
      (∀ k : Int, c.maxOverflow = some k →
        (((c.children.length : Int) + 1 > k) →
          ∃ it, (dropHandler c item_id ex orig initC).target.children =
              (c.children.append (.cons it .nil)).tail ∧
            (dropHandler c item_id ex orig initC).target.children.length =
              c.children.length) ∧
        (¬ ((c.children.length : Int) + 1 > k) →
          ∃ it, (dropHandler c item_id ex orig initC).target.children =
              c.children.append (.cons it .nil))) ∧
      (c.maxOverflow = none →
        ∃ it, (dropHandler c item_id ex orig initC).target.children =
            c.children.append (.cons it .nil) ∧
          (dropHandler c item_id ex orig initC).target.children.length =
            c.children.length + 1) := by
  intro c item_id ex orig initC hE hD
  rw [dropHandler_dest c item_id ex orig initC hE hD]
  set it := committedItem ex orig initC item_id with hit
  have hlen : (c.children.append (.cons it .nil)).length = c.children.length + 1 :=
    length_append_single c.children it
  have hd : ∀ k : Int, c.maxOverflow = some k → destChildren c it =
      if (((c.children.append (.cons it .nil)).length : Int) > k)
      then (c.children.append (.cons it .nil)).tail
      else c.children.append (.cons it .nil) := by
    intro k hk
    simp [destChildren, hk]
  constructor
  · intro k hk
    constructor
    · intro hgt
      refine ⟨it, ?_, ?_⟩
      · show destChildren c it = (c.children.append (.cons it .nil)).tail
        rw [hd k hk, if_pos (by rw [hlen]; push_cast; omega)]
      · show (destChildren c it).length = c.children.length
        rw [hd k hk, if_pos (by rw [hlen]; push_cast; omega), length_tail, hlen]
        omega
    · intro hle
      refine ⟨it, ?_⟩
      show destChildren c it = c.children.append (.cons it .nil)
      rw [hd k hk, if_neg (by rw [hlen]; push_cast; omega)]
  · intro hov
    have hdn : destChildren c it = c.children.append (.cons it .nil) := by
      simp [destChildren, hov]
    refine ⟨it, ?_, ?_⟩
    · exact hdn
    · show (destChildren c it).length = c.children.length + 1
      rw [hdn, hlen]

/-- C4 witness: with overflow limit 1 and two prior children, the commit
evicts the oldest child and the count stays at two. -/
theorem overflow_evicts_oldest_witness :
    ∃ it, (dropHandler cOver "x" (some nX) nX NodeList.nil).target.children =
        (cOver.children.append (.cons it .nil)).tail ∧
      (dropHandler cOver "x" (some nX) nX NodeList.nil).target.children.length =
        cOver.children.length :=
  ((overflow_evicts_oldest cOver "x" (some nX) nX NodeList.nil rfl (by decide)).1
    1 rfl).1 (by decide)

/-!  C5.  Clone identity. -/

/-- C5 counterexample: committing a clone of a correct-marked origin into an
enabled destination changes the origin class attribute — the commit strips
the grading markers from the origin, so the origin does not stay unchanged
in all its attributes. -/
theorem clone_origin_marker_cex :
    cDest.enabled = true ∧
    purposeIs cDest.purpose "destination" = true ∧
    listHas nMarked.classes "CTAT--correct" = true ∧
    (dropHandler cDest "o1--7" none nMarked NodeList.nil).originalAfter.classes ≠
      nMarked.classes := by
  refine ⟨rfl, rfl, rfl, ?_⟩
  decide

/-- C5 (amended): `handle_drag_start` mutates no container — cloning is
deferred to commit, so an aborted drag creates no orphan clone (conjunct
1); and after an enabled clone-path commit the origin item keeps its id,
value, draggability, disabled state and children, the only change being
that its grading-marker classes are stripped (conjunct 2). -/
theorem clone_preserves_origin :
    (∀ (s : PageState) (origin : Container) (itemId suffix : String),
        (handle_drag_start s origin itemId suffix).2.containers = s.containers) ∧
    (∀ (c : Container) (item_id : String) (orig : Node) (initC : NodeList),
        c.enabled = true →
          (dropHandler c item_id none orig initC).originalAfter = stripMarkers orig ∧
          (stripMarkers orig).id = orig.id ∧
          (stripMarkers orig).value = orig.value ∧
          (stripMarkers orig).draggable = orig.draggable ∧
          (stripMarkers orig).disabled = orig.disabled ∧
          (stripMarkers orig).children = orig.children ∧
          hasGradeMarker (stripMarkers orig) = false) := by
  constructor
  · intro s origin itemId suffix
    rfl
  · intro c item_id orig initC hE
    refine ⟨?_, ?_, ?_, ?_, ?_, ?_, stripMarkers_no_marker orig⟩
    · simp only [dropHandler]
      rw [if_pos hE]
      repeat' split
      all_goals rfl
    all_goals (cases orig; rfl)

/-- C5 witness: a concrete clone commit leaves the origin intact apart from
its stripped grading markers. -/
theorem clone_preserves_origin_witness :
    (dropHandler cOver "o1--7" none nMarked NodeList.nil).originalAfter =
      stripMarkers nMarked ∧
    (stripMarkers nMarked).id = nMarked.id ∧
    (stripMarkers nMarked).value = nMarked.value ∧
    (stripMarkers nMarked).draggable = nMarked.draggable ∧
    (stripMarkers nMarked).disabled = nMarked.disabled ∧
    (stripMarkers nMarked).children = nMarked.children ∧
    hasGradeMarker (stripMarkers nMarked) = false :=
  clone_preserves_origin.2 cOver "o1--7" nMarked NodeList.nil rfl

end DragSource
